import Mathlib

/-!
Shallow embedding of the Change Impact Forecaster risk engine
(`src/cif/engine.py` and `src/cif/models.py`).

The dependency graph (a Python dict `{service: {depends_on: [...]}}`) is
modelled as an association list from service name to its `depends_on` list.
`datetime` values are modelled by the two fields the engine reads:
`weekday()` (0 = Monday … 6 = Sunday) and `hour` (0–23).
The HTTP 422 error raised by `assess_change` is modelled by the `Except`
error branch carrying the exception payload.
-/

/-- The two fields of a Python `datetime` that the engine reads. -/
structure PyDateTime where
  weekday : Fin 7
  hour : Fin 24
deriving DecidableEq

/-- The `Environment` enum from `models.py`. -/
inductive Environment where
  | dev
  | staging
  | prod
deriving DecidableEq

/-- The `ChangeType` enum from `models.py`. -/
inductive ChangeType where
  | config
  | deployment
  | infra
  | database
  | access
deriving DecidableEq

/-- The `RollbackQuality` enum from `models.py`; the member with value "partial"
is named `part` here. -/
inductive RollbackQuality where
  | none
  | part
  | tested
deriving DecidableEq

/-- The `MonitoringPlan` enum from `models.py`. -/
inductive MonitoringPlan where
  | basic
  | strong
deriving DecidableEq

/-- The `.value` string of an `Environment` member. -/
def Environment.value : Environment → String
  | .dev => "dev"
  | .staging => "staging"
  | .prod => "prod"

/-- The `.value` string of a `ChangeType` member. -/
def ChangeType.value : ChangeType → String
  | .config => "config"
  | .deployment => "deployment"
  | .infra => "infra"
  | .database => "database"
  | .access => "access"

/-- The `.value` string of a `RollbackQuality` member. -/
def RollbackQuality.value : RollbackQuality → String
  | .none => "none"
  | .part => "partial"
  | .tested => "tested"

/-- The `.value` string of a `MonitoringPlan` member. -/
def MonitoringPlan.value : MonitoringPlan → String
  | .basic => "basic"
  | .strong => "strong"

/-- Structure `ChangeInput` from `models.py`. -/
structure ChangeInput where
  change_id : String
  title : String
  change_type : ChangeType
  environment : Environment
  window_start : Option PyDateTime
  window_end : Option PyDateTime
  services_touched : List String
  deployment_method : Option String
  rollback_quality : RollbackQuality
  monitoring_plan : MonitoringPlan
  notes : Option String
deriving DecidableEq

/-- Structure `Factor` from `models.py`. -/
structure Factor where
  code : String
  message : String
  weight : Int
deriving DecidableEq

/-- The `blast_radius` dict built by `assess_change`. -/
structure BlastRadius where
  direct : List String
  indirect : List String
deriving DecidableEq

/-- Structure `ForecastResult` from `models.py`. -/
structure ForecastResult where
  change_id : String
  risk_score : Int
  risk_level : String
  confidence : String
  blast_radius : BlastRadius
  factors : List Factor
  mitigations : List String
  assumptions : List String
  missing_info : List String
  confidence_reasons : List String
deriving DecidableEq

/-- The `detail` payload of the HTTP 422 raised on unknown services. -/
structure ErrorDetail where
  error : String
  message : String
  known_services : List String
  hint : String
deriving DecidableEq

/-- The `HTTPException` raised by `assess_change`. -/
structure HTTPException where
  status_code : Nat
  detail : ErrorDetail
deriving DecidableEq

/-- The dependency graph: service name paired with its `depends_on` list. -/
abbrev Graph := List (String × List String)

/-- Function `known_services` from `engine.py`: the keys of the graph. -/
def known_services (graph : Graph) : List String :=
  graph.map Prod.fst

/-- One pass of the inner `for service, meta in graph.items()` loop of
`find_indirect_services`: every graph entry whose `depends_on` contains
`current` and which is not yet impacted is marked impacted and enqueued. -/
def scanGraph (current : String) (impacted q : List String) :
    Graph → List String × List String
  | [] => (impacted, q)
  | (service, deps) :: rest =>
      if current ∈ deps ∧ service ∉ impacted then
        scanGraph current (impacted ++ [service]) (q ++ [service]) rest
      else
        scanGraph current impacted q rest

/-- Relation: `service` is an edge target of `current`: some graph entry for `service`
lists `current` in its `depends_on`. -/
def edge (g : Graph) (current service : String) : Prop :=
  ∃ ds, (service, ds) ∈ g ∧ current ∈ ds

/-- The BFS loop of `find_indirect_services`: dequeue `current`, scan the
graph for new dependents, repeat until the queue is empty. -/
def bfsLoop (g : Graph) (impacted q : List String) : List String :=
  match q with
  | [] => impacted
  | current :: rest =>
      bfsLoop g (scanGraph current impacted rest g).1
        (scanGraph current impacted rest g).2
termination_by
  (((g.map Prod.fst).toFinset.filter (fun s => s ∉ impacted)).card, q.length)
decreasing_by
  have mono : ∀ (c x : String) (g : Graph) (imp q : List String),
      x ∈ imp → x ∈ (scanGraph c imp q g).1 := by
    intro c x g
    induction g with
    | nil => intro imp q h; simpa [scanGraph] using h
    | cons p rest ih =>
        intro imp q h
        obtain ⟨service, deps⟩ := p
        simp only [scanGraph]
        split
        · exact ih _ _ (by simp [h])
        · exact ih _ _ h
  have progress : ∀ (c : String) (g : Graph) (imp q : List String),
      ((scanGraph c imp q g).1 = imp ∧ (scanGraph c imp q g).2 = q) ∨
      ∃ x, x ∈ (scanGraph c imp q g).1 ∧ x ∉ imp ∧ x ∈ g.map Prod.fst := by
    intro c g
    induction g with
    | nil => intro imp q; exact Or.inl ⟨rfl, rfl⟩
    | cons p rest ih =>
        intro imp q
        obtain ⟨service, deps⟩ := p
        simp only [scanGraph]
        split <;> rename_i hcond
        · exact Or.inr ⟨service, mono _ _ _ _ _ (by simp), hcond.2, by simp⟩
        · rcases ih imp q with ⟨h1, h2⟩ | ⟨x, hx1, hx2, hx3⟩
          · exact Or.inl ⟨h1, h2⟩
          · exact Or.inr ⟨x, hx1, hx2, by simp [hx3]⟩
  rcases progress current g impacted rest with ⟨h1, h2⟩ | ⟨x, hx1, hx2, hx3⟩
  · rw [h1, h2]
    exact Prod.Lex.right _ (by simp)
  · apply Prod.Lex.left
    apply Finset.card_lt_card
    constructor
    · intro y hy
      simp only [Finset.mem_filter] at hy ⊢
      exact ⟨hy.1, fun hc => hy.2 (mono _ _ _ _ _ hc)⟩
    · intro hsub
      have hxin : x ∈ ((g.map Prod.fst).toFinset.filter (fun s => s ∉ impacted)) := by
        simp only [Finset.mem_filter, List.mem_toFinset]
        exact ⟨hx3, hx2⟩
      have hx4 := hsub hxin
      simp only [Finset.mem_filter] at hx4
      exact hx4.2 hx1

/-- Function `find_indirect_services` from `engine.py`: BFS over reverse dependency
edges starting from the touched services, returning the sorted impacted set. -/
def find_indirect_services (direct_services : List String) (graph : Graph) :
    List String :=
  List.insertionSort (· ≤ ·) (bfsLoop graph [] direct_services)

/-- Function `is_risky_window` from `engine.py`: risky if weekend or outside
08:00–18:00 (prod only). -/
def is_risky_window (window_start : Option PyDateTime) (environment : String) :
    Bool :=
  match window_start with
  | none => false
  | some w =>
      if environment = "prod" then
        if 5 ≤ w.weekday.val then true
        else decide (w.hour.val < 8 ∨ 18 ≤ w.hour.val)
      else false

/-- Function `confidence_level` from `engine.py`: completeness/quality points. -/
def confidence_level (change : ChangeInput) (indirect_services : List String) :
    String :=
  let points : Nat :=
    (if change.window_start.isSome then 1 else 0)
    + (if change.rollback_quality.value = "tested" then 2
       else if change.rollback_quality.value = "partial" then 1 else 0)
    + (if change.monitoring_plan.value = "strong" then 2 else 1)
    + (if indirect_services.length = 0 then 2
       else if indirect_services.length ≤ 2 then 1 else 0)
  if 7 ≤ points then "high"
  else if 4 ≤ points then "medium"
  else "low"

/-- Function `_risk_level` from `engine.py`. -/
def risk_level_of (score : Int) : String :=
  if 70 ≤ score then "high"
  else if 35 ≤ score then "medium"
  else "low"

/-- The `type_weights` dict lookup (with default 10) from `assess_change`. -/
def type_weights (change_type : String) : Int :=
  if change_type = "config" then 10
  else if change_type = "deployment" then 15
  else if change_type = "infra" then 25
  else if change_type = "database" then 30
  else if change_type = "access" then 20
  else 10

/-- The mitigation strings appended by `assess_change`, in source order
(the appends at lines 166, 172, 196, 227, 236 of `engine.py`). -/
def rawMitigations (change : ChangeInput) : List String :=
  (if change.environment.value = "prod" then
    ["Make sure rollback steps are written and tested before starting."] else [])
  ++ (if is_risky_window change.window_start change.environment.value then
    ["If possible, schedule during staffed hours or add extra on-call cover."] else [])
  ++ (if 3 ≤ change.services_touched.length then
    ["Consider splitting the change into smaller steps."] else [])
  ++ (if change.rollback_quality.value = "none" then
    ["Add at least a basic rollback plan (and validate it)."] else [])
  ++ (if change.monitoring_plan.value = "strong" then [] else
    ["Add extra monitoring (dashboards/alerts) for the change window."])

/-- The dedup loop at the end of `assess_change` (the `seen` set in the
source always has the same membership as the output list, so the output
list itself serves as the membership test). -/
def dedupMitigations (mitigations : List String) : List String :=
  mitigations.foldl (fun acc m => if m ∈ acc then acc else acc ++ [m]) []

/-- The `ForecastResult` built by the success path of `assess_change`. -/
def assessResult (graph : Graph) (change : ChangeInput) : ForecastResult :=
  let indirect_services := find_indirect_services change.services_touched graph
  let env := change.environment.value
  let change_type := change.change_type.value
  let w := type_weights change_type
  let rollback := change.rollback_quality.value
  let monitoring := change.monitoring_plan.value
  let score : Int :=
    (if env = "prod" then 30 else 0)
    + (if is_risky_window change.window_start env then 10 else 0)
    + w
    + (if 3 ≤ change.services_touched.length then 15 else 0)
    + (if indirect_services ≠ [] then 10 else 0)
    + (if rollback = "tested" then -15 else if rollback = "none" then 15 else 0)
    + (if monitoring = "strong" then -10 else 0)
  let final_score := max 0 (min 100 score)
  let factors : List Factor :=
    (if env = "prod" then [⟨"ENV_PROD", "Production change", 30⟩] else [])
    ++ (if is_risky_window change.window_start env then
        [⟨"RISKY_WINDOW", "Scheduled out-of-hours or on a weekend", 10⟩] else [])
    ++ [⟨"TYPE", "Change type: " ++ change_type, w⟩]
    ++ (if 3 ≤ change.services_touched.length then
        [⟨"SVC_MANY", "Touches 3+ services", 15⟩] else [])
    ++ (if indirect_services ≠ [] then
        [⟨"BLAST_INDIRECT",
          "Indirectly impacts " ++ toString indirect_services.length
            ++ " additional service(s)", 10⟩] else [])
    ++ (if rollback = "tested" then [⟨"RB_TESTED", "Rollback is tested", -15⟩]
        else if rollback = "none" then [⟨"RB_NONE", "No rollback plan", 15⟩] else [])
    ++ (if monitoring = "strong" then
        [⟨"MON_STRONG", "Strong monitoring plan", -10⟩] else [])
  let missing_info : List String :=
    (if change.window_start = Option.none then ["window_start not provided"] else [])
    ++ (if rollback = "none" then ["no rollback plan"] else [])
    ++ (if monitoring = "strong" then [] else ["monitoring plan is not strong"])
  let confidence_reasons : List String :=
    (if change.window_start = Option.none then [] else ["change window specified"])
    ++ (if indirect_services.length = 0 then ["no indirect service impact"]
        else if indirect_services.length ≤ 2 then ["limited indirect service impact"]
        else [])
    ++ (if rollback = "tested" then ["rollback plan tested"]
        else if rollback = "partial" then ["rollback plan partially defined"] else [])
    ++ (if monitoring = "strong" then ["strong monitoring in place"] else [])
  ⟨change.change_id,
    final_score,
    risk_level_of final_score,
    confidence_level change indirect_services,
    ⟨change.services_touched, indirect_services⟩,
    factors,
    dedupMitigations (rawMitigations change),
    ["Service dependencies are loaded from data/dependencies.yaml.",
     "Blast radius is estimated using direct + downstream dependencies."],
    missing_info,
    confidence_reasons⟩

/-- The `unknown` list computed by `assess_change`. -/
def unknownServices (graph : Graph) (change : ChangeInput) : List String :=
  change.services_touched.filter (fun s => decide (s ∉ known_services graph))

/-- Python `sorted(known)`: the known-service set, deduplicated and sorted. -/
def sortedKnown (graph : Graph) : List String :=
  List.insertionSort (· ≤ ·) (known_services graph).dedup

/-- The HTTP 422 payload raised by `assess_change` on unknown services. -/
def unknownError (graph : Graph) (change : ChangeInput) : HTTPException :=
  ⟨422,
    ⟨"unknown_service",
      "One or more services are not in the dependency graph: "
        ++ String.intercalate (", ")
            (List.insertionSort (· ≤ ·) (unknownServices graph change))
        ++ ".",
      sortedKnown graph,
      "Check data/dependencies.yaml or fix the service name in services_touched."⟩⟩

/-- Function `assess_change` from `engine.py`, with the dependency graph passed in
(the file load is an external collaborator). The raise of the HTTP 422 on
unknown services — which in the source happens before any scoring rule
runs — is the `Except.error` branch. -/
def assess_change (graph : Graph) (change : ChangeInput) :
    Except HTTPException ForecastResult :=
  if unknownServices graph change = [] then
    Except.ok (assessResult graph change)
  else
    Except.error (unknownError graph change)

/-- Claim-side characterisation of first-occurrence dedup: keep each string
at the position of its first occurrence, drop later repeats. -/
def dedupKeepFirst : List String → List String
  | [] => []
  | a :: l => a :: dedupKeepFirst (l.filter (fun x => decide (x ≠ a)))
termination_by l => l.length
decreasing_by
  simp only [List.length_cons]
  exact Nat.lt_succ_of_le (List.length_filter_le _ _)

/-- Replace only the `rollback_quality` field of a change. -/
def withRollback (change : ChangeInput) (rq : RollbackQuality) : ChangeInput :=
  ⟨change.change_id, change.title, change.change_type, change.environment,
   change.window_start, change.window_end, change.services_touched,
   change.deployment_method, rq, change.monitoring_plan, change.notes⟩

/-- Replace only the `notes` field of a change. -/
def withNotes (change : ChangeInput) (n : Option String) : ChangeInput :=
  ⟨change.change_id, change.title, change.change_type, change.environment,
   change.window_start, change.window_end, change.services_touched,
   change.deployment_method, change.rollback_quality, change.monitoring_plan, n⟩

/-- Graph where service a depends on service b (both are touched below). -/
def c1Graph : Graph := [("a", ["b"]), ("b", [])]

/-- A valid change touching both a and b. -/
def c1Change : ChangeInput :=
  ⟨"CHG-1", "Touch a and b", ChangeType.config, Environment.dev,
   Option.none, Option.none, ["a", "b"], Option.none,
   RollbackQuality.part, MonitoringPlan.basic, Option.none⟩

/-- A small demo graph: api depends on auth, gateway depends on api. -/
def demoGraph : Graph := [("auth", []), ("api", ["auth"]), ("gateway", ["api"])]

/-- A valid demo change against `demoGraph`. -/
def demoChange : ChangeInput :=
  ⟨"CHG-2", "Demo deployment", ChangeType.deployment, Environment.prod,
   Option.none, Option.none, ["auth"], Option.none,
   RollbackQuality.part, MonitoringPlan.basic, Option.none⟩

/-- A change naming a service absent from `demoGraph`. -/
def badChange : ChangeInput :=
  ⟨"CHG-3", "Bad service name", ChangeType.config, Environment.dev,
   Option.none, Option.none, ["ghost"], Option.none,
   RollbackQuality.part, MonitoringPlan.basic, Option.none⟩

/-- A prod change scheduled on a Sunday at 02:00. -/
def windowChange : ChangeInput :=
  ⟨"CHG-4", "Weekend window", ChangeType.config, Environment.prod,
   some ⟨(6 : Fin 7), (2 : Fin 24)⟩, Option.none, ["auth"], Option.none,
   RollbackQuality.part, MonitoringPlan.basic, Option.none⟩

/-- A chain graph: b depends on a, c depends on b. -/
def w4Graph : Graph := [("a", []), ("b", ["a"]), ("c", ["b"])]

/-- A graph whose only service, auth, has no dependents. -/
def w8Graph : Graph := [("auth", [])]

/-- Scenario A input: dev config change on auth, tested rollback, strong
monitoring, weekday 10:00 window. -/
def scenarioAChange : ChangeInput :=
  ⟨"CHG-5", "Scenario A", ChangeType.config, Environment.dev,
   some ⟨(2 : Fin 7), (10 : Fin 24)⟩, Option.none, ["auth"], Option.none,
   RollbackQuality.tested, MonitoringPlan.strong, Option.none⟩

theorem scanGraph_fst_mono (c x : String) (g : Graph) :
    ∀ imp q : List String, x ∈ imp → x ∈ (scanGraph c imp q g).1 := by
  induction g with
  | nil => intro imp q h; simpa [scanGraph] using h
  | cons p rest ih =>
      intro imp q h
      obtain ⟨service, deps⟩ := p
      simp only [scanGraph]
      split
      · exact ih _ _ (by simp [h])
      · exact ih _ _ h

theorem scanGraph_snd_mono (c x : String) (g : Graph) :
    ∀ imp q : List String, x ∈ q → x ∈ (scanGraph c imp q g).2 := by
  induction g with
  | nil => intro imp q h; simpa [scanGraph] using h
  | cons p rest ih =>
      intro imp q h
      obtain ⟨service, deps⟩ := p
      simp only [scanGraph]
      split
      · exact ih _ _ (by simp [h])
      · exact ih _ _ h

theorem scanGraph_snd_sound (c x : String) (g : Graph) :
    ∀ imp q : List String, x ∈ (scanGraph c imp q g).2 → x ∈ q ∨ edge g c x := by
  induction g with
  | nil => intro imp q h; exact Or.inl (by simpa [scanGraph] using h)
  | cons p rest ih =>
      intro imp q h
      obtain ⟨service, deps⟩ := p
      simp only [scanGraph] at h
      split at h <;> rename_i hcond
      · rcases ih _ _ h with hq | hedge
        · rcases List.mem_append.1 hq with hq | hq
          · exact Or.inl hq
          · simp only [List.mem_singleton] at hq
            subst hq
            exact Or.inr ⟨deps, by simp, hcond.1⟩
        · obtain ⟨ds, hmem, hc⟩ := hedge
          exact Or.inr ⟨ds, by simp [hmem], hc⟩
      · rcases ih _ _ h with hq | hedge
        · exact Or.inl hq
        · obtain ⟨ds, hmem, hc⟩ := hedge
          exact Or.inr ⟨ds, by simp [hmem], hc⟩

theorem scanGraph_fst_spec (c x : String) (g : Graph) :
    ∀ imp q : List String, x ∈ (scanGraph c imp q g).1 →
      x ∈ imp ∨ (edge g c x ∧ x ∈ (scanGraph c imp q g).2) := by
  induction g with
  | nil => intro imp q h; exact Or.inl (by simpa [scanGraph] using h)
  | cons p rest ih =>
      intro imp q h
      obtain ⟨service, deps⟩ := p
      simp only [scanGraph] at h ⊢
      split at h <;> rename_i hcond
      · rcases ih _ _ h with hq | ⟨hedge, hq⟩
        · rcases List.mem_append.1 hq with hq | hq
          · exact Or.inl hq
          · simp only [List.mem_singleton] at hq
            subst hq
            refine Or.inr ⟨⟨deps, by simp, hcond.1⟩, ?_⟩
            rw [if_pos hcond]
            exact scanGraph_snd_mono _ _ _ _ _ (by simp)
        · obtain ⟨ds, hmem, hc⟩ := hedge
          refine Or.inr ⟨⟨ds, by simp [hmem], hc⟩, ?_⟩
          rw [if_pos hcond]
          exact hq
      · rcases ih _ _ h with hq | ⟨hedge, hq⟩
        · exact Or.inl hq
        · obtain ⟨ds, hmem, hc⟩ := hedge
          refine Or.inr ⟨⟨ds, by simp [hmem], hc⟩, ?_⟩
          rw [if_neg hcond]
          exact hq

theorem scanGraph_covers (c s : String) (ds : List String) (g : Graph) :
    ∀ imp q : List String, (s, ds) ∈ g → c ∈ ds → s ∈ (scanGraph c imp q g).1 := by
  induction g with
  | nil => intro imp q h; simp at h
  | cons p rest ih =>
      intro imp q hmem hc
      obtain ⟨service, deps⟩ := p
      rcases List.mem_cons.1 hmem with heq | htail
      · have hs : s = service := congrArg Prod.fst heq
        have hd : ds = deps := congrArg Prod.snd heq
        subst hs; subst hd
        simp only [scanGraph]
        split <;> rename_i hcond
        · exact scanGraph_fst_mono _ _ _ _ _ (by simp)
        · have hin : s ∈ imp := by
            by_contra hni
            exact hcond ⟨hc, hni⟩
          exact scanGraph_fst_mono _ _ _ _ _ hin
      · simp only [scanGraph]
        split
        · exact ih _ _ htail hc
        · exact ih _ _ htail hc

theorem bfsLoop_mono (g : Graph) (x : String) (imp q : List String) :
    x ∈ imp → x ∈ bfsLoop g imp q := by
  induction imp, q using bfsLoop.induct g with
  | case1 imp => intro h; simpa [bfsLoop] using h
  | case2 imp current rest ih =>
      intro h
      simp only [bfsLoop]
      exact ih (scanGraph_fst_mono _ _ _ _ _ h)

theorem bfsLoop_sound (g : Graph) (direct : List String) (imp q : List String) :
    (∀ x ∈ imp, ∃ d ∈ direct, Relation.TransGen (edge g) d x) →
    (∀ x ∈ q, x ∈ direct ∨ ∃ d ∈ direct, Relation.TransGen (edge g) d x) →
    ∀ x ∈ bfsLoop g imp q, ∃ d ∈ direct, Relation.TransGen (edge g) d x := by
  induction imp, q using bfsLoop.induct g with
  | case1 imp =>
      intro Himp _ x hx
      exact Himp x (by simpa [bfsLoop] using hx)
  | case2 imp current rest ih =>
      intro Himp Hq x hx
      simp only [bfsLoop] at hx
      refine ih ?_ ?_ x hx
      · intro y hy
        rcases scanGraph_fst_spec current y g imp rest hy with hyimp | ⟨hedge, _⟩
        · exact Himp y hyimp
        · rcases Hq current (by simp) with hd | ⟨d, hd, htc⟩
          · exact ⟨current, hd, Relation.TransGen.single hedge⟩
          · exact ⟨d, hd, htc.tail hedge⟩
      · intro y hy
        rcases scanGraph_snd_sound current y g imp rest hy with hyq | hedge
        · exact Hq y (by simp [hyq])
        · rcases Hq current (by simp) with hd | ⟨d, hd, htc⟩
          · exact Or.inr ⟨current, hd, Relation.TransGen.single hedge⟩
          · exact Or.inr ⟨d, hd, htc.tail hedge⟩

theorem bfsLoop_closed (g : Graph) (direct : List String) (imp q : List String) :
    (∀ y, (y ∈ imp ∨ y ∈ direct) → y ∉ q → ∀ s, edge g y s → s ∈ imp) →
    ∀ y, (y ∈ bfsLoop g imp q ∨ y ∈ direct) → ∀ s, edge g y s → s ∈ bfsLoop g imp q := by
  induction imp, q using bfsLoop.induct g with
  | case1 imp =>
      intro K y hy s he
      simp only [bfsLoop] at hy ⊢
      exact K y hy (by simp) s he
  | case2 imp current rest ih =>
      intro K
      simp only [bfsLoop]
      refine ih ?_
      intro y hy hyq s he
      by_cases hyc : y = current
      · subst hyc
        obtain ⟨ds, hmem, hc⟩ := he
        exact scanGraph_covers y s ds g imp rest hmem hc
      · have hyrest : y ∉ rest := fun hr => hyq (scanGraph_snd_mono _ _ _ _ _ hr)
        have hynq : y ∉ current :: rest := by simp [hyc, hyrest]
        rcases hy with hy1 | hyd
        · rcases scanGraph_fst_spec current y g imp rest hy1 with hyimp | ⟨_, hy2⟩
          · exact scanGraph_fst_mono _ _ _ _ _ (K y (Or.inl hyimp) hynq s he)
          · exact absurd hy2 hyq
        · exact scanGraph_fst_mono _ _ _ _ _ (K y (Or.inr hyd) hynq s he)

theorem mem_bfsLoop_iff (g : Graph) (direct : List String) (x : String) :
    x ∈ bfsLoop g [] direct ↔ ∃ d ∈ direct, Relation.TransGen (edge g) d x := by
  constructor
  · exact fun hx => bfsLoop_sound g direct [] direct (by simp) (fun y hy => Or.inl hy) x hx
  · rintro ⟨d, hd, htc⟩
    have hK : ∀ y, (y ∈ ([] : List String) ∨ y ∈ direct) → y ∉ direct →
        ∀ s, edge g y s → s ∈ ([] : List String) := by
      rintro y (hy | hy) hnd s _
      · exact absurd hy (List.not_mem_nil y)
      · exact absurd hy hnd
    have hclosed := bfsLoop_closed g direct [] direct hK
    induction htc with
    | single h => exact hclosed d (Or.inr hd) _ h
    | tail _ h ih => exact hclosed _ (Or.inl ih) _ h

/-- Characterisation of the impact propagation: a service is in the output of
`find_indirect_services` exactly when it is reachable in one or more
reverse-dependency steps from some directly-touched service. -/
theorem mem_find_indirect_services (direct : List String) (g : Graph) (x : String) :
    x ∈ find_indirect_services direct g ↔
      ∃ d ∈ direct, Relation.TransGen (edge g) d x := by
  rw [find_indirect_services]
  rw [(List.perm_insertionSort _ _).mem_iff]
  exact mem_bfsLoop_iff g direct x

/-- C4: re-running the impact propagation on its own output adds no new
services: the impacted set is closed under one-hop dependency. -/
theorem C4_propagate_idempotent (direct : List String) (g : Graph) (x : String)
    (h : x ∈ find_indirect_services (find_indirect_services direct g) g) :
    x ∈ find_indirect_services direct g := by
  rw [mem_find_indirect_services] at h ⊢
  obtain ⟨d, hd, htc⟩ := h
  rw [mem_find_indirect_services] at hd
  obtain ⟨d0, hd0, htc0⟩ := hd
  exact ⟨d0, hd0, htc0.trans htc⟩

theorem C4_propagate_idempotent_witness :
    "c" ∈ find_indirect_services ["a"] w4Graph := by
  refine C4_propagate_idempotent ["a"] w4Graph ("c") ?_
  rw [mem_find_indirect_services]
  refine ⟨"b", ?_, Relation.TransGen.single ⟨["b"], by simp [w4Graph], by simp⟩⟩
  rw [mem_find_indirect_services]
  exact ⟨"a", by simp, Relation.TransGen.single ⟨["a"], by simp [w4Graph], by simp⟩⟩

/-- C1: the code violates indirect exclusivity. On the graph where service a
depends on service b, assessing a change touching both a and b returns a
blast radius whose indirect list contains the touched service a. -/
theorem C1_touched_in_indirect :
    ∃ r, assess_change c1Graph c1Change = Except.ok r ∧
      "a" ∈ c1Change.services_touched ∧
      "a" ∈ r.blast_radius.indirect := by
  refine ⟨assessResult c1Graph c1Change, rfl, by decide, ?_⟩
  have hbr : (assessResult c1Graph c1Change).blast_radius.indirect
      = find_indirect_services ["a", "b"] c1Graph := rfl
  rw [hbr, mem_find_indirect_services]
  exact ⟨"b", by simp, Relation.TransGen.single ⟨["b"], by simp [c1Graph], by simp⟩⟩

/-- C10: the notes field has no influence on the result of `assess_change`. -/
theorem C10_notes_irrelevant (graph : Graph) (change : ChangeInput) (n : Option String) :
    assess_change graph (withNotes change n) = assess_change graph change := rfl

/-- Inversion: a successful `assess_change` returns exactly `assessResult`. -/
theorem assess_ok {graph : Graph} {change : ChangeInput} {r : ForecastResult}
    (h : assess_change graph change = Except.ok r) :
    r = assessResult graph change := by
  unfold assess_change at h
  split at h
  · exact (Except.ok.inj h).symm
  · cases h

theorem risk_level_of_spec (s : Int) :
    (risk_level_of s = "high" ↔ 70 ≤ s) ∧
    (risk_level_of s = "medium" ↔ 35 ≤ s ∧ s < 70) ∧
    (risk_level_of s = "low" ↔ s < 35) := by
  unfold risk_level_of
  split_ifs with h1 h2 <;> simp <;> omega

theorem weight_sum_ifone (p : Prop) [Decidable p] (f : Factor) :
    (((if p then [f] else []) : List Factor).map Factor.weight).sum
      = if p then f.weight else 0 := by
  split <;> simp

theorem weight_sum_iftwo (p q : Prop) [Decidable p] [Decidable q] (f f2 : Factor) :
    (((if p then [f] else if q then [f2] else []) : List Factor).map Factor.weight).sum
      = if p then f.weight else if q then f2.weight else 0 := by
  split_ifs <;> simp

theorem env_value_prod_iff (e : Environment) : e.value = "prod" ↔ e = Environment.prod := by
  cases e <;> simp [Environment.value]

theorem is_risky_window_iff (w : Option PyDateTime) (env : String) :
    is_risky_window w env = true ↔
      (env = "prod" ∧ ∃ d, w = some d ∧
        (d.weekday.val = 5 ∨ d.weekday.val = 6 ∨ d.hour.val < 8 ∨ 18 ≤ d.hour.val)) := by
  cases w with
  | none => simp [is_risky_window]
  | some d =>
      have h7 := d.weekday.isLt
      simp only [is_risky_window, Option.some.injEq]
      by_cases h1 : env = "prod"
      · rw [if_pos h1]
        by_cases h2 : 5 ≤ d.weekday.val
        · rw [if_pos h2]
          refine ⟨fun _ => ⟨h1, d, rfl, by omega⟩, fun _ => rfl⟩
        · rw [if_neg h2, decide_eq_true_iff]
          constructor
          · intro hp
            exact ⟨h1, d, rfl, by omega⟩
          · rintro ⟨-, d2, heq, hcond⟩
            cases heq
            omega
      · rw [if_neg h1]
        simp [h1]

theorem factors_filter_risky (graph : Graph) (change : ChangeInput) :
    ((assessResult graph change).factors.filter
        (fun f => decide (f.code = "RISKY_WINDOW")))
      = (if is_risky_window change.window_start change.environment.value
         then [(⟨"RISKY_WINDOW", "Scheduled out-of-hours or on a weekend", 10⟩ : Factor)]
         else []) := by
  simp only [assessResult]
  split_ifs <;> simp_all [List.filter_append]

theorem no_dependents_no_indirect (graph : Graph) (a : String)
    (hnodep : ∀ p ∈ graph, a ∉ p.2) :
    find_indirect_services [a] graph = [] := by
  rw [List.eq_nil_iff_forall_not_mem]
  intro x hx
  rw [mem_find_indirect_services] at hx
  obtain ⟨d, hd, htc⟩ := hx
  simp only [List.mem_singleton] at hd
  subst hd
  obtain ⟨b, hab, -⟩ := Relation.TransGen.head'_iff.mp htc
  obtain ⟨ds, hmem, hc⟩ := hab
  exact hnodep _ hmem hc

theorem mem_dedupKeepFirst (x : String) : ∀ l : List String, x ∈ dedupKeepFirst l → x ∈ l := by
  intro l
  induction l using dedupKeepFirst.induct with
  | case1 => intro h; simp [dedupKeepFirst] at h
  | case2 a t ih =>
      intro h
      simp only [dedupKeepFirst, List.mem_cons] at h
      rcases h with h | h
      · simp [h]
      · have ht := ih h
        simp only [List.mem_filter] at ht
        simp [ht.1]

theorem dedupKeepFirst_nodup : ∀ l : List String, (dedupKeepFirst l).Nodup := by
  intro l
  induction l using dedupKeepFirst.induct with
  | case1 => simp [dedupKeepFirst]
  | case2 a t ih =>
      simp only [dedupKeepFirst, List.nodup_cons]
      refine ⟨?_, ih⟩
      intro hmem
      have ht := mem_dedupKeepFirst _ _ hmem
      simp only [List.mem_filter, decide_eq_true_eq] at ht
      exact ht.2 rfl

theorem dedup_foldl_eq (l : List String) :
    ∀ acc : List String,
      l.foldl (fun acc m => if m ∈ acc then acc else acc ++ [m]) acc
        = acc ++ dedupKeepFirst (l.filter (fun x => decide (x ∉ acc))) := by
  induction l with
  | nil => intro acc; simp [dedupKeepFirst]
  | cons m t ih =>
      intro acc
      simp only [List.foldl_cons, List.filter_cons]
      by_cases hm : m ∈ acc
      · rw [if_pos hm]
        have hd : (decide (m ∉ acc)) = false := by simp [hm]
        rw [hd]
        simpa using ih acc
      · rw [if_neg hm]
        have hd : (decide (m ∉ acc)) = true := by simp [hm]
        rw [hd]
        rw [ih (acc ++ [m])]
        simp only [if_true]
        rw [List.append_assoc]
        congr 1
        simp only [List.singleton_append, dedupKeepFirst]
        congr 1
        rw [List.filter_filter]
        congr 1
        apply List.filter_congr
        intro x _
        by_cases h1 : x ∈ acc <;> by_cases h2 : x = m <;> simp [h1, h2]

theorem dedupMitigations_eq_keepFirst (l : List String) :
    dedupMitigations l = dedupKeepFirst l := by
  have h := dedup_foldl_eq l []
  have hfil : l.filter (fun x => decide (x ∉ ([] : List String))) = l := by simp
  rw [hfil] at h
  simpa [dedupMitigations] using h

theorem confidence_level_spec (change : ChangeInput) (ind : List String) :
    confidence_level change ind =
      (let pts : Nat :=
        (if change.window_start.isSome then 1 else 0)
        + (match change.rollback_quality with
           | RollbackQuality.tested => 2
           | RollbackQuality.part => 1
           | RollbackQuality.none => 0)
        + (if change.monitoring_plan = MonitoringPlan.strong then 2 else 1)
        + (if ind = [] then 2 else if ind.length ≤ 2 then 1 else 0);
      if 7 ≤ pts then "high" else if 4 ≤ pts then "medium" else "low") := by
  unfold confidence_level
  obtain ⟨cid, title, ct, env, ws, we, st, dm, rq, mp, notes⟩ := change
  cases rq <;> cases mp <;>
    simp [RollbackQuality.value, MonitoringPlan.value, List.length_eq_zero]

/-- C2: the risk_score of a successful assessment equals the sum of the
weights of the returned factors clamped to [0, 100], lies within [0, 100],
and risk_level is high iff the score is at least 70, medium iff it is in
[35, 70), and low iff it is below 35. -/
theorem C2_risk_score_spec (graph : Graph) (change : ChangeInput) (r : ForecastResult)
    (h : assess_change graph change = Except.ok r) :
    r.risk_score = max 0 (min 100 ((r.factors.map Factor.weight).sum)) ∧
    0 ≤ r.risk_score ∧ r.risk_score ≤ 100 ∧
    (r.risk_level = "high" ↔ 70 ≤ r.risk_score) ∧
    (r.risk_level = "medium" ↔ 35 ≤ r.risk_score ∧ r.risk_score < 70) ∧
    (r.risk_level = "low" ↔ r.risk_score < 35) := by
  obtain rfl := assess_ok h
  refine ⟨?_, ?_, ?_, ?_, ?_, ?_⟩
  · simp only [assessResult, List.map_append, List.sum_append, weight_sum_ifone,
      weight_sum_iftwo, List.map_cons, List.map_nil, List.sum_cons, List.sum_nil]
    split_ifs <;> omega
  · simp only [assessResult]
    exact le_max_left _ _
  · simp only [assessResult]
    exact max_le (by norm_num) (min_le_left _ _)
  · simp only [assessResult]
    exact (risk_level_of_spec _).1
  · simp only [assessResult]
    exact (risk_level_of_spec _).2.1
  · simp only [assessResult]
    exact (risk_level_of_spec _).2.2

theorem C2_risk_score_spec_witness :
    (assessResult demoGraph demoChange).risk_score
      = max 0 (min 100 (((assessResult demoGraph demoChange).factors.map Factor.weight).sum)) ∧
    0 ≤ (assessResult demoGraph demoChange).risk_score ∧
    (assessResult demoGraph demoChange).risk_score ≤ 100 ∧
    ((assessResult demoGraph demoChange).risk_level = "high" ↔
      70 ≤ (assessResult demoGraph demoChange).risk_score) ∧
    ((assessResult demoGraph demoChange).risk_level = "medium" ↔
      35 ≤ (assessResult demoGraph demoChange).risk_score ∧
        (assessResult demoGraph demoChange).risk_score < 70) ∧
    ((assessResult demoGraph demoChange).risk_level = "low" ↔
      (assessResult demoGraph demoChange).risk_score < 35) :=
  C2_risk_score_spec demoGraph demoChange (assessResult demoGraph demoChange) rfl

/-- C3: holding all other fields fixed, a tested rollback never yields a
greater risk_score than a partial one, which never yields a greater
risk_score than no rollback plan. -/
theorem C3_rollback_monotone (graph : Graph) (change : ChangeInput)
    (rt rp rn : ForecastResult)
    (ht : assess_change graph (withRollback change RollbackQuality.tested) = Except.ok rt)
    (hp : assess_change graph (withRollback change RollbackQuality.part) = Except.ok rp)
    (hn : assess_change graph (withRollback change RollbackQuality.none) = Except.ok rn) :
    rt.risk_score ≤ rp.risk_score ∧ rp.risk_score ≤ rn.risk_score := by
  obtain rfl := assess_ok ht
  obtain rfl := assess_ok hp
  obtain rfl := assess_ok hn
  simp only [assessResult, withRollback, RollbackQuality.value, String.reduceEq, reduceIte]
  constructor <;> (split_ifs <;> omega)

theorem C3_rollback_monotone_witness :
    (assessResult demoGraph (withRollback demoChange RollbackQuality.tested)).risk_score
      ≤ (assessResult demoGraph (withRollback demoChange RollbackQuality.part)).risk_score ∧
    (assessResult demoGraph (withRollback demoChange RollbackQuality.part)).risk_score
      ≤ (assessResult demoGraph (withRollback demoChange RollbackQuality.none)).risk_score :=
  C3_rollback_monotone demoGraph demoChange
    (assessResult demoGraph (withRollback demoChange RollbackQuality.tested))
    (assessResult demoGraph (withRollback demoChange RollbackQuality.part))
    (assessResult demoGraph (withRollback demoChange RollbackQuality.none))
    rfl rfl rfl

/-- C5: the confidence returned by a successful assessment equals the level
obtained by the documented point system (+1 window present; tested +2 /
partial +1 / none +0; strong monitoring +2 else +1; empty indirect list +2,
at most 2 elements +1, else +0; high iff at least 7 points, medium iff at
least 4). -/
theorem C5_confidence_spec (graph : Graph) (change : ChangeInput) (r : ForecastResult)
    (h : assess_change graph change = Except.ok r) :
    r.confidence =
      (let pts : Nat :=
        (if change.window_start.isSome then 1 else 0)
        + (match change.rollback_quality with
           | RollbackQuality.tested => 2
           | RollbackQuality.part => 1
           | RollbackQuality.none => 0)
        + (if change.monitoring_plan = MonitoringPlan.strong then 2 else 1)
        + (if r.blast_radius.indirect = [] then 2
           else if r.blast_radius.indirect.length ≤ 2 then 1 else 0);
      if 7 ≤ pts then "high" else if 4 ≤ pts then "medium" else "low") := by
  obtain rfl := assess_ok h
  have hbr : (assessResult graph change).blast_radius.indirect
      = find_indirect_services change.services_touched graph := rfl
  have hcf : (assessResult graph change).confidence
      = confidence_level change (find_indirect_services change.services_touched graph) := rfl
  rw [hcf, hbr]
  exact confidence_level_spec change _

theorem C5_confidence_spec_witness :
    (assessResult demoGraph demoChange).confidence =
      (let pts : Nat :=
        (if demoChange.window_start.isSome then 1 else 0)
        + (match demoChange.rollback_quality with
           | RollbackQuality.tested => 2
           | RollbackQuality.part => 1
           | RollbackQuality.none => 0)
        + (if demoChange.monitoring_plan = MonitoringPlan.strong then 2 else 1)
        + (if (assessResult demoGraph demoChange).blast_radius.indirect = [] then 2
           else if (assessResult demoGraph demoChange).blast_radius.indirect.length ≤ 2
             then 1 else 0);
      if 7 ≤ pts then "high" else if 4 ≤ pts then "medium" else "low") :=
  C5_confidence_spec demoGraph demoChange (assessResult demoGraph demoChange) rfl

/-- C6: when services_touched names a service absent from the graph keys,
assess_change produces a client-input error (status 422) instead of a
result; the payload carries the error code, a message listing the unknown
names, the full known-service set, and a corrective hint. -/
theorem C6_unknown_service_error (graph : Graph) (change : ChangeInput)
    (h : ∃ s ∈ change.services_touched, s ∉ known_services graph) :
    ∃ e : HTTPException,
      assess_change graph change = Except.error e ∧
      e.status_code = 422 ∧
      e.detail.error = "unknown_service" ∧
      (∀ s, s ∈ e.detail.known_services ↔ s ∈ known_services graph) ∧
      (∃ u : List String,
        u ≠ [] ∧
        (∀ s, s ∈ u ↔ s ∈ change.services_touched ∧ s ∉ known_services graph) ∧
        e.detail.message =
          "One or more services are not in the dependency graph: "
            ++ String.intercalate (", ") u ++ ".") ∧
      e.detail.hint =
        "Check data/dependencies.yaml or fix the service name in services_touched." := by
  have hne : unknownServices graph change ≠ [] := by
    obtain ⟨s, hs, hns⟩ := h
    intro heq
    have hmem : s ∈ unknownServices graph change := by
      simp [unknownServices, List.mem_filter, hs, hns]
    rw [heq] at hmem
    exact List.not_mem_nil s hmem
  refine ⟨unknownError graph change, ?_, rfl, rfl, ?_, ?_, rfl⟩
  · unfold assess_change
    rw [if_neg hne]
  · intro s
    simp only [unknownError, sortedKnown]
    rw [(List.perm_insertionSort _ _).mem_iff, List.mem_dedup]
  · refine ⟨List.insertionSort (fun a b => a ≤ b) (unknownServices graph change), ?_, ?_, rfl⟩
    · intro hnil
      have hperm := List.perm_insertionSort (fun a b : String => a ≤ b)
        (unknownServices graph change)
      rw [hnil] at hperm
      exact hne hperm.symm.eq_nil
    · intro s
      rw [(List.perm_insertionSort _ _).mem_iff]
      simp [unknownServices, List.mem_filter]

theorem C6_unknown_service_error_witness :
    ∃ e : HTTPException,
      assess_change demoGraph badChange = Except.error e ∧
      e.status_code = 422 ∧
      e.detail.error = "unknown_service" ∧
      (∀ s, s ∈ e.detail.known_services ↔ s ∈ known_services demoGraph) ∧
      (∃ u : List String,
        u ≠ [] ∧
        (∀ s, s ∈ u ↔ s ∈ badChange.services_touched ∧ s ∉ known_services demoGraph) ∧
        e.detail.message =
          "One or more services are not in the dependency graph: "
            ++ String.intercalate (", ") u ++ ".") ∧
      e.detail.hint =
        "Check data/dependencies.yaml or fix the service name in services_touched." :=
  C6_unknown_service_error demoGraph badChange ⟨"ghost", by decide, by decide⟩

/-- C7: the RISKY_WINDOW rule contributes exactly one factor of weight 10,
and it fires exactly when environment is prod and the window start is on a
Saturday or Sunday or outside 08:00-18:00; it never fires when window_start
is absent. -/
theorem C7_risky_window_rule (graph : Graph) (change : ChangeInput) (r : ForecastResult)
    (h : assess_change graph change = Except.ok r) :
    ((change.environment = Environment.prod ∧
        (∃ w, change.window_start = some w ∧
          (w.weekday.val = 5 ∨ w.weekday.val = 6 ∨ w.hour.val < 8 ∨ 18 ≤ w.hour.val))) →
      r.factors.filter (fun f => decide (f.code = "RISKY_WINDOW"))
        = [(⟨"RISKY_WINDOW", "Scheduled out-of-hours or on a weekend", 10⟩ : Factor)]) ∧
    (¬(change.environment = Environment.prod ∧
        (∃ w, change.window_start = some w ∧
          (w.weekday.val = 5 ∨ w.weekday.val = 6 ∨ w.hour.val < 8 ∨ 18 ≤ w.hour.val))) →
      r.factors.filter (fun f => decide (f.code = "RISKY_WINDOW")) = []) ∧
    (change.window_start = Option.none →
      r.factors.filter (fun f => decide (f.code = "RISKY_WINDOW")) = []) := by
  obtain rfl := assess_ok h
  have hiff : (is_risky_window change.window_start change.environment.value = true) ↔
      (change.environment = Environment.prod ∧
        (∃ w, change.window_start = some w ∧
          (w.weekday.val = 5 ∨ w.weekday.val = 6 ∨ w.hour.val < 8 ∨ 18 ≤ w.hour.val))) := by
    rw [is_risky_window_iff, env_value_prod_iff]
  refine ⟨?_, ?_, ?_⟩
  · intro hc
    rw [factors_filter_risky, if_pos (hiff.mpr hc)]
  · intro hc
    rw [factors_filter_risky, if_neg (fun hb => hc (hiff.mp hb))]
  · intro hnone
    rw [factors_filter_risky, hnone]
    simp [is_risky_window]

theorem C7_risky_window_rule_witness :
    ((windowChange.environment = Environment.prod ∧
        (∃ w, windowChange.window_start = some w ∧
          (w.weekday.val = 5 ∨ w.weekday.val = 6 ∨ w.hour.val < 8 ∨ 18 ≤ w.hour.val))) →
      (assessResult demoGraph windowChange).factors.filter
          (fun f => decide (f.code = "RISKY_WINDOW"))
        = [(⟨"RISKY_WINDOW", "Scheduled out-of-hours or on a weekend", 10⟩ : Factor)]) ∧
    (¬(windowChange.environment = Environment.prod ∧
        (∃ w, windowChange.window_start = some w ∧
          (w.weekday.val = 5 ∨ w.weekday.val = 6 ∨ w.hour.val < 8 ∨ 18 ≤ w.hour.val))) →
      (assessResult demoGraph windowChange).factors.filter
          (fun f => decide (f.code = "RISKY_WINDOW")) = []) ∧
    (windowChange.window_start = Option.none →
      (assessResult demoGraph windowChange).factors.filter
          (fun f => decide (f.code = "RISKY_WINDOW")) = []) :=
  C7_risky_window_rule demoGraph windowChange (assessResult demoGraph windowChange) rfl

/-- C8 (Scenario A): a dev config change touching only auth (a key with no
dependents), tested rollback, strong monitoring, weekday 10:00 window,
yields exactly the TYPE(+10), RB_TESTED(-15) and MON_STRONG(-10) factors,
a risk_score of 0 (the negative sum clamps to 0) and risk_level low. -/
theorem C8_scenario_a (graph : Graph) (change : ChangeInput) (r : ForecastResult)
    (w : PyDateTime)
    (h : assess_change graph change = Except.ok r)
    (henv : change.environment = Environment.dev)
    (hct : change.change_type = ChangeType.config)
    (hst : change.services_touched = ["auth"])
    (hrb : change.rollback_quality = RollbackQuality.tested)
    (hmp : change.monitoring_plan = MonitoringPlan.strong)
    (hws : change.window_start = some w)
    (hwd : w.weekday.val < 5)
    (hhr : w.hour.val = 10)
    (hnodep : ∀ p ∈ graph, "auth" ∉ p.2) :
    r.factors = [(⟨"TYPE", "Change type: config", 10⟩ : Factor),
                 (⟨"RB_TESTED", "Rollback is tested", -15⟩ : Factor),
                 (⟨"MON_STRONG", "Strong monitoring plan", -10⟩ : Factor)] ∧
    r.risk_score = 0 ∧ r.risk_level = "low" := by
  obtain rfl := assess_ok h
  have hind : find_indirect_services ["auth"] graph = [] :=
    no_dependents_no_indirect graph ("auth") hnodep
  simp [assessResult, hind, henv, hct, hst, hrb, hmp, hws, Environment.value,
    ChangeType.value, RollbackQuality.value, MonitoringPlan.value, type_weights,
    is_risky_window, risk_level_of]

theorem C8_scenario_a_witness :
    (assessResult w8Graph scenarioAChange).factors
      = [(⟨"TYPE", "Change type: config", 10⟩ : Factor),
         (⟨"RB_TESTED", "Rollback is tested", -15⟩ : Factor),
         (⟨"MON_STRONG", "Strong monitoring plan", -10⟩ : Factor)] ∧
    (assessResult w8Graph scenarioAChange).risk_score = 0 ∧
    (assessResult w8Graph scenarioAChange).risk_level = "low" :=
  C8_scenario_a w8Graph scenarioAChange (assessResult w8Graph scenarioAChange)
    ⟨(2 : Fin 7), (10 : Fin 24)⟩ rfl rfl rfl rfl rfl rfl rfl
    (by decide) (by decide) (by decide)

/-- C9: the mitigations of a successful assessment contain no duplicates and
keep the first-occurrence order of the suggestions produced by the fired
rules. -/
theorem C9_mitigation_dedup (graph : Graph) (change : ChangeInput) (r : ForecastResult)
    (h : assess_change graph change = Except.ok r) :
    r.mitigations.Nodup ∧ r.mitigations = dedupKeepFirst (rawMitigations change) := by
  obtain rfl := assess_ok h
  have hm : (assessResult graph change).mitigations
      = dedupMitigations (rawMitigations change) := rfl
  rw [hm, dedupMitigations_eq_keepFirst]
  exact ⟨dedupKeepFirst_nodup _, rfl⟩

theorem C9_mitigation_dedup_witness :
    (assessResult demoGraph demoChange).mitigations.Nodup ∧
    (assessResult demoGraph demoChange).mitigations
      = dedupKeepFirst (rawMitigations demoChange) :=
  C9_mitigation_dedup demoGraph demoChange (assessResult demoGraph demoChange) rfl
